import Mathlib

/-!
Verification of the feature cache server subsystem used by the distributed
GCN training script in examples/profile/dgl_cache.py, together with the
training-loop facts (auto_cache trigger, miss-rate logging guard, per-rank
training-node partition) embedded from that script.  The GraphCacheServer
class itself is not part of this repository files; its operations are
modelled from the specification contracts and marked as such in their
doc comments.
-/

namespace AccGNN

abbrev NodeId := Nat

abbrev FieldName := String

abbrev FeatureRow := List Int

/-- Error taxonomy of the cache server, from the error-handling design of the spec. -/
inductive CacheError where
  | ConfigurationError
  | UnknownFieldError
  | OutOfRangeError
  deriving DecidableEq, Repr

/-- Modelled from the spec: the external Feature Store interface, reduced to its
row-fetch operation get_row(node_id, field_name). -/
structure FeatureStore where
  get_row : NodeId → FieldName → FeatureRow

/-- Modelled from the spec: the per-worker cache server state.  The class
GraphCacheServer is instantiated in the training script but its implementation
is not among the repository files; the state components follow the data model of the spec (fields registry, cache mask, cache table, access counters, the
log flag, and the populated flag of the Warm to Populated transition). -/
structure GraphCacheServer where
  vnum : Nat
  fields : List FieldName
  fieldsInit : Bool
  cacheMask : NodeId → Bool
  cacheTable : NodeId → FieldName → Option FeatureRow
  requests : Nat
  misses : Nat
  log : Bool
  populated : Bool

/-- Modelled from the spec: init_field allocates storage for each named field;
it fails with ConfigurationError if called more than once or with an empty
set of names. -/
def init_field (c : GraphCacheServer) (names : List FieldName) :
    Except CacheError GraphCacheServer :=
  if c.fieldsInit then .error .ConfigurationError
  else if names.isEmpty then .error .ConfigurationError
  else .ok { c with fields := names, fieldsInit := true }

/-- Modelled from the spec: the row served for one requested id and one field,
sourced from the local table if cached, otherwise fetched synchronously from
the Feature Store. -/
def serve_row (c : GraphCacheServer) (fs : FeatureStore) (id : NodeId)
    (f : FieldName) : FeatureRow :=
  if c.cacheMask id then
    match c.cacheTable id f with
    | some r => r
    | none => fs.get_row id f
  else fs.get_row id f

/-- Number of requested ids in a batch that are not cache members. -/
def miss_count (mask : NodeId → Bool) (req : List NodeId) : Nat :=
  (req.filter (fun id => !(mask id))).length

/-- Modelled from the spec: fetch_data serves one batch of node ids.  It fails
with UnknownFieldError if fields were never initialized, fails with
OutOfRangeError if any id is outside the valid range, and otherwise returns,
for each registered field, the rows of all requested ids in request order,
updating the access counters when counting is enabled. -/
def fetch_data (c : GraphCacheServer) (fs : FeatureStore) (req : List NodeId) :
    Except CacheError (GraphCacheServer × List (FieldName × List FeatureRow)) :=
  if c.fieldsInit then
    if req.all (fun id => decide (id < c.vnum)) then
      .ok ((if c.log then
              { c with requests := c.requests + req.length,
                       misses := c.misses + miss_count c.cacheMask req }
            else c),
           c.fields.map (fun f => (f, req.map (fun id => serve_row c fs id f))))
    else .error .OutOfRangeError
  else .error .UnknownFieldError

/-- Modelled from the spec: total misses over total requests since counting
began, exactly 0 when no request was counted yet. -/
def get_miss_rate (c : GraphCacheServer) : ℚ :=
  if c.requests = 0 then 0 else (c.misses : ℚ) / (c.requests : ℚ)

/-- Modelled from the spec: the proposal of the Access Recorder, selecting up to
capacity ids from the observed set with ties broken by ascending NodeId.
The returned ascending list is the support of the CacheMask. -/
def propose_cache_set (observed : Finset NodeId) (capacity : Nat) : List NodeId :=
  (observed.sort (· ≤ ·)).take capacity

/-- Modelled from the spec: the populate path invoked by auto_cache, which
bulk-fetches the selected ids for every registered field and inserts them,
overwriting any stale entries. -/
def populate (fs : FeatureStore) (fields : List FieldName) (mask : NodeId → Bool)
    (table : NodeId → FieldName → Option FeatureRow) :
    NodeId → FieldName → Option FeatureRow :=
  fun id f =>
    if mask id && decide (f ∈ fields) then some (fs.get_row id f) else table id f

/-- Modelled from the spec: auto_cache builds the CacheMask from the observed
ids via propose_cache_set and runs the populate path; a repeated call is a
guarded no-op once the server is populated. -/
def auto_cache (c : GraphCacheServer) (fs : FeatureStore) (capacity : Nat)
    (observed : Finset NodeId) : GraphCacheServer :=
  if c.populated then c
  else
    { c with
        cacheMask := fun id => decide (id ∈ propose_cache_set observed capacity),
        cacheTable := populate fs c.fields
          (fun id => decide (id ∈ propose_cache_set observed capacity)) c.cacheTable,
        populated := true }

/-- A concrete Feature Store used by the witnesses. -/
def demo_store : FeatureStore :=
  ⟨fun id _ => [(id : Int)]⟩

/-- A concrete initialized cache server used by the witnesses: vnum 10, both
fields of the training script registered, node 2 cached, counting disabled. -/
def demo_server : GraphCacheServer :=
  { vnum := 10
    fields := ["features", "norm"]
    fieldsInit := true
    cacheMask := fun id => decide (id = 2)
    cacheTable := populate demo_store ["features", "norm"]
      (fun id => decide (id = 2)) (fun _ _ => none)
    requests := 0
    misses := 0
    log := false
    populated := true }

theorem fetch_data_ok_of (c : GraphCacheServer) (fs : FeatureStore)
    (req : List NodeId) (hinit : c.fieldsInit = true)
    (hrange : ∀ id ∈ req, id < c.vnum) :
    fetch_data c fs req = .ok
      ((if c.log then
          { c with requests := c.requests + req.length,
                   misses := c.misses + miss_count c.cacheMask req }
        else c),
       c.fields.map (fun f => (f, req.map (fun id => serve_row c fs id f)))) := by
  have hall : (req.all fun id => decide (id < c.vnum)) = true := by
    rw [List.all_eq_true]
    intro id hid
    exact decide_eq_true (hrange id hid)
  unfold fetch_data
  simp [hinit, hall]

/-- Claim C1: for every sequence of ids inside the valid range, once fields are
initialized, fetch_data succeeds and returns, for each registered field in
registration order, exactly one row per requested id in the order of the
request; it never returns a partial bundle. -/
theorem C1_fetch_data_complete_ordered (c : GraphCacheServer) (fs : FeatureStore)
    (req : List NodeId) (hinit : c.fieldsInit = true)
    (hrange : ∀ id ∈ req, id < c.vnum) :
    ∃ c2, fetch_data c fs req = .ok
      (c2, c.fields.map (fun f => (f, req.map (fun id => serve_row c fs id f)))) :=
  ⟨_, fetch_data_ok_of c fs req hinit hrange⟩

/-- Witness for C1 at a concrete server and request. -/
theorem C1_witness :
    ∃ c2, fetch_data demo_server demo_store [2, 0, 7] = .ok
      (c2, demo_server.fields.map
        (fun f => (f, [2, 0, 7].map (fun id => serve_row demo_server demo_store id f)))) :=
  C1_fetch_data_complete_ordered demo_server demo_store [2, 0, 7] rfl (by decide)

/-- Claim C7: a request containing any id outside the valid range fails with
OutOfRangeError and returns no row for any requested id. -/
theorem C7_out_of_range_rejected (c : GraphCacheServer) (fs : FeatureStore)
    (req : List NodeId) (hinit : c.fieldsInit = true)
    (hbad : ∃ id ∈ req, c.vnum ≤ id) :
    fetch_data c fs req = .error CacheError.OutOfRangeError := by
  obtain ⟨id, hmem, hid⟩ := hbad
  have hall : ¬((req.all fun i => decide (i < c.vnum)) = true) := by
    rw [List.all_eq_true]
    push_neg
    refine ⟨id, hmem, ?_⟩
    simpa using hid
  unfold fetch_data
  simp [hinit, hall]

/-- Witness for C7 at a concrete out-of-range request. -/
theorem C7_witness :
    fetch_data demo_server demo_store [3, 11] = .error CacheError.OutOfRangeError :=
  C7_out_of_range_rejected demo_server demo_store [3, 11] rfl (by decide)

/-- Claim C8: init_field fails with ConfigurationError when called a second
time or with an empty name set, and fetch_data before a successful init_field
fails with UnknownFieldError. -/
theorem C8_init_field_errors (c c2 : GraphCacheServer) (fs : FeatureStore)
    (names names2 : List FieldName) (req : List NodeId) :
    (init_field c names = .ok c2 →
      init_field c2 names2 = .error CacheError.ConfigurationError) ∧
    init_field c [] = .error CacheError.ConfigurationError ∧
    (c.fieldsInit = false →
      fetch_data c fs req = .error CacheError.UnknownFieldError) := by
  refine ⟨?_, ?_, ?_⟩
  · intro h
    unfold init_field at h
    split at h
    · exact Except.noConfusion h
    · split at h
      · exact Except.noConfusion h
      · simp only [Except.ok.injEq] at h
        subst h
        simp [init_field]
  · unfold init_field
    split
    · rfl
    · rfl
  · intro h
    unfold fetch_data
    simp [h]

/-- Claim C3: fetch_data never modifies the cache table: on any successful call
the cache mask and the cached rows are unchanged, and an uncached id is served
by a synchronous fetch from the Feature Store. -/
theorem C3_fetch_data_frame (c c2 : GraphCacheServer) (fs : FeatureStore)
    (req : List NodeId) (b : List (FieldName × List FeatureRow))
    (h : fetch_data c fs req = .ok (c2, b)) :
    c2.cacheMask = c.cacheMask ∧ c2.cacheTable = c.cacheTable ∧
    (∀ id f, c.cacheMask id = false → serve_row c fs id f = fs.get_row id f) := by
  unfold fetch_data at h
  split at h
  · split at h
    · simp only [Except.ok.injEq, Prod.mk.injEq] at h
      obtain ⟨hc, -⟩ := h
      subst hc
      refine ⟨?_, ?_, ?_⟩
      · split <;> rfl
      · split <;> rfl
      · intro id f hm
        unfold serve_row
        rw [hm]
        simp
    · exact Except.noConfusion h
  · exact Except.noConfusion h

/-- The bundle that fetch_data returns for the request consisting of node 3
alone against the demo server and store. -/
def demo_bundle : List (FieldName × List FeatureRow) :=
  [("features", [[(3 : Int)]]), ("norm", [[(3 : Int)]])]

/-- Witness for C3 at a concrete successful call. -/
theorem C3_witness :
    demo_server.cacheMask = demo_server.cacheMask ∧
    demo_server.cacheTable = demo_server.cacheTable ∧
    (∀ id f, demo_server.cacheMask id = false →
      serve_row demo_server demo_store id f = demo_store.get_row id f) :=
  C3_fetch_data_frame demo_server demo_server demo_store [3] demo_bundle rfl

/-- Claim C4: propose_cache_set is deterministic in its arguments, selects
exactly min(capacity, card observed) ids, every selected id belongs to the
observed set, and the selection is the ascending-order prefix: it is strictly
sorted and every selected id is below every unselected observed id. -/
theorem C4_propose_cache_set_spec (observed : Finset NodeId) (capacity : Nat) :
    propose_cache_set observed capacity = propose_cache_set observed capacity ∧
    (propose_cache_set observed capacity).length = min capacity observed.card ∧
    (∀ x ∈ propose_cache_set observed capacity, x ∈ observed) ∧
    List.Sorted (· < ·) (propose_cache_set observed capacity) ∧
    (∀ x ∈ propose_cache_set observed capacity, ∀ y ∈ observed,
      y ∉ propose_cache_set observed capacity → x < y) := by
  refine ⟨rfl, ?_, ?_, ?_, ?_⟩
  · unfold propose_cache_set
    rw [List.length_take, Finset.length_sort]
  · intro x hx
    exact (Finset.mem_sort (· ≤ ·)).mp (List.take_subset _ _ hx)
  · exact List.Pairwise.sublist (List.take_sublist _ _) (Finset.sort_sorted_lt observed)
  · intro x hx y hy hyn
    unfold propose_cache_set at hx hyn
    have hsorted : List.Pairwise (· < ·) (observed.sort (· ≤ ·)) :=
      Finset.sort_sorted_lt observed
    have hy2 : y ∈ observed.sort (· ≤ ·) := (Finset.mem_sort (· ≤ ·)).mpr hy
    rw [← List.take_append_drop capacity (observed.sort (· ≤ ·))] at hsorted hy2
    rcases List.mem_append.mp hy2 with hcase | hcase
    · exact absurd hcase hyn
    · exact (List.pairwise_append.mp hsorted).2.2 x hx y hcase

/-- Claim C6: the populate path is idempotent: populating twice with the same
mask against the same Feature Store yields the table of populating once. -/
theorem C6_populate_idempotent (fs : FeatureStore) (flds : List FieldName)
    (mask : NodeId → Bool) (table : NodeId → FieldName → Option FeatureRow) :
    populate fs flds mask (populate fs flds mask table) =
      populate fs flds mask table := by
  funext id f
  unfold populate
  by_cases h : (mask id && decide (f ∈ flds)) = true
  · rw [if_pos h, if_pos h]
  · rw [if_neg h, if_neg h]

/-- Successively serve a list of request batches through fetch_data, stopping
at the first failing batch. -/
def run_fetches (fs : FeatureStore) :
    GraphCacheServer → List (List NodeId) → GraphCacheServer
  | c, [] => c
  | c, req :: rest =>
    match fetch_data c fs req with
    | .ok (c2, _) => run_fetches fs c2 rest
    | .error _ => c

/-- Total number of requested ids over a list of batches. -/
def total_requests (batches : List (List NodeId)) : Nat :=
  (batches.map List.length).sum

/-- Total number of cache misses over a list of batches for a fixed mask. -/
def total_misses (mask : NodeId → Bool) (batches : List (List NodeId)) : Nat :=
  (batches.map (miss_count mask)).sum

theorem run_fetches_counters (fs : FeatureStore) (batches : List (List NodeId)) :
    ∀ c : GraphCacheServer, c.fieldsInit = true → c.log = true →
      (∀ b ∈ batches, ∀ id ∈ b, id < c.vnum) →
      (run_fetches fs c batches).requests = c.requests + total_requests batches ∧
      (run_fetches fs c batches).misses =
        c.misses + total_misses c.cacheMask batches := by
  induction batches with
  | nil =>
    intro c _ _ _
    simp [run_fetches, total_requests, total_misses]
  | cons b rest ih =>
    intro c hinit hlog hrange
    have hfd := fetch_data_ok_of c fs b hinit (hrange b (List.mem_cons_self b rest))
    simp only [hlog, if_true] at hfd
    obtain ⟨h1, h2⟩ := ih
      { c with requests := c.requests + b.length,
               misses := c.misses + miss_count c.cacheMask b,
               log := true }
      hinit rfl (fun b2 hb2 id hid => hrange b2 (List.mem_cons_of_mem _ hb2) id hid)
    constructor
    · simp only [run_fetches, hfd]
      rw [h1]
      simp only [total_requests, List.map_cons, List.sum_cons]
      omega
    · simp only [run_fetches, hfd]
      rw [h2]
      simp only [total_misses, List.map_cons, List.sum_cons]
      omega

/-- Claim C5: with counting enabled, after any interleaving of successful
batches totalling n counted requests of which m were misses, get_miss_rate
returns exactly m divided by n, and exactly 0 when n is zero. -/
theorem C5_miss_rate_exact (c : GraphCacheServer) (fs : FeatureStore)
    (batches : List (List NodeId)) (hinit : c.fieldsInit = true)
    (hlog : c.log = true) (hreq : c.requests = 0) (hmiss : c.misses = 0)
    (hrange : ∀ b ∈ batches, ∀ id ∈ b, id < c.vnum) :
    (total_requests batches = 0 →
      get_miss_rate (run_fetches fs c batches) = 0) ∧
    (total_requests batches ≠ 0 →
      get_miss_rate (run_fetches fs c batches) =
        (total_misses c.cacheMask batches : ℚ) / (total_requests batches : ℚ)) := by
  obtain ⟨h1, h2⟩ := run_fetches_counters fs batches c hinit hlog hrange
  rw [hreq, Nat.zero_add] at h1
  rw [hmiss, Nat.zero_add] at h2
  constructor
  · intro h0
    unfold get_miss_rate
    rw [h1, h0]
    simp
  · intro h0
    unfold get_miss_rate
    rw [h1, h2]
    simp [h0]

/-- The demo server with request counting enabled. -/
def demo_log_server : GraphCacheServer :=
  { demo_server with log := true }

/-- Witness for C5: two batches against the counting demo server, one hit and
one miss, giving a miss rate of one half. -/
theorem C5_witness :
    (total_requests [[2], [3]] = 0 →
      get_miss_rate (run_fetches demo_store demo_log_server [[2], [3]]) = 0) ∧
    (total_requests [[2], [3]] ≠ 0 →
      get_miss_rate (run_fetches demo_store demo_log_server [[2], [3]]) =
        (total_misses demo_log_server.cacheMask [[2], [3]] : ℚ) /
          (total_requests [[2], [3]] : ℚ)) :=
  C5_miss_rate_exact demo_log_server demo_store [[2], [3]] rfl rfl rfl rfl (by decide)

/-- The per-worker training-loop state embedded from the training script: the
cache server plus counters of how many times auto_cache was invoked and how
many times the miss-rate branch was taken. -/
structure TrainState where
  cacher : GraphCacheServer
  cacheCalls : Nat
  missRateChecks : Nat

/-- A fresh cache server as constructed at worker start, before init_field. -/
def fresh_server (vnum : Nat) : GraphCacheServer :=
  { vnum := vnum
    fields := []
    fieldsInit := false
    cacheMask := fun _ => false
    cacheTable := fun _ _ => none
    requests := 0
    misses := 0
    log := true
    populated := false }

/-- The cacher setup of the training script: init_field with the two embed
names, then the log flag assigned false. -/
def trainer_setup (vnum : Nat) : GraphCacheServer :=
  match init_field (fresh_server vnum) ["features", "norm"] with
  | .ok c => { c with log := false }
  | .error _ => fresh_server vnum

/-- The training-loop state right after the cacher setup of the script. -/
def init_train_state (vnum : Nat) : TrainState :=
  { cacher := trainer_setup vnum, cacheCalls := 0, missRateChecks := 0 }

/-- One training step of the script: fetch_data on the batch, then, exactly
when this is the first step of the first epoch, the auto_cache call on the
observed batch. -/
def train_step (fs : FeatureStore) (capacity epoch step : Nat) (nf : List NodeId)
    (st : TrainState) : TrainState :=
  match fetch_data st.cacher fs nf with
  | .ok (c2, _) =>
    if epoch = 0 ∧ step = 1 then
      { st with cacher := auto_cache c2 fs capacity nf.toFinset,
                cacheCalls := st.cacheCalls + 1 }
    else { st with cacher := c2 }
  | .error _ => st

/-- The inner batch loop of one epoch, the step counter already incremented
before the auto_cache guard is tested, as in the script. -/
def run_batches (fs : FeatureStore) (capacity epoch : Nat) :
    Nat → List (List NodeId) → TrainState → TrainState
  | _, [], st => st
  | step, nf :: rest, st =>
    run_batches fs capacity epoch (step + 1) rest
      (train_step fs capacity epoch step nf st)

/-- One epoch of the script: the batch loop starting at step 1, then the
miss-rate branch guarded by the log flag. -/
def run_epoch (fs : FeatureStore) (capacity epoch : Nat)
    (batches : List (List NodeId)) (st : TrainState) : TrainState :=
  let st2 := run_batches fs capacity epoch 1 batches st
  if st2.cacher.log then { st2 with missRateChecks := st2.missRateChecks + 1 }
  else st2

/-- The whole run: epochs 0 to nepochs - 1 in order. -/
def run_epochs (fs : FeatureStore) (capacity : Nat)
    (batches : Nat → List (List NodeId)) (nepochs : Nat) (st : TrainState) :
    TrainState :=
  (List.range nepochs).foldl (fun s e => run_epoch fs capacity e (batches e) s) st

theorem fetch_data_preserve (c c2 : GraphCacheServer) (fs : FeatureStore)
    (req : List NodeId) (b : List (FieldName × List FeatureRow))
    (h : fetch_data c fs req = .ok (c2, b)) :
    c2.vnum = c.vnum ∧ c2.fieldsInit = c.fieldsInit ∧
    c2.cacheMask = c.cacheMask ∧ c2.log = c.log ∧ c2.populated = c.populated := by
  unfold fetch_data at h
  split at h
  · split at h
    · simp only [Except.ok.injEq, Prod.mk.injEq] at h
      obtain ⟨hc, -⟩ := h
      subst hc
      split <;> exact ⟨rfl, rfl, rfl, rfl, rfl⟩
    · exact Except.noConfusion h
  · exact Except.noConfusion h

theorem auto_cache_preserve (c : GraphCacheServer) (fs : FeatureStore)
    (capacity : Nat) (o : Finset NodeId) :
    (auto_cache c fs capacity o).log = c.log ∧
    (auto_cache c fs capacity o).vnum = c.vnum ∧
    (auto_cache c fs capacity o).fieldsInit = c.fieldsInit ∧
    (auto_cache c fs capacity o).populated = true := by
  by_cases hp : c.populated
  · simp [auto_cache, hp]
  · simp [auto_cache, hp]

theorem train_step_frame (fs : FeatureStore) (capacity epoch step : Nat)
    (nf : List NodeId) (st : TrainState) :
    (train_step fs capacity epoch step nf st).cacher.log = st.cacher.log ∧
    (train_step fs capacity epoch step nf st).missRateChecks =
      st.missRateChecks := by
  unfold train_step
  cases hfd : fetch_data st.cacher fs nf with
  | ok p =>
    obtain ⟨c2, b⟩ := p
    obtain ⟨-, -, -, hl, -⟩ := fetch_data_preserve st.cacher c2 fs nf b hfd
    obtain ⟨al, -, -, -⟩ := auto_cache_preserve c2 fs capacity nf.toFinset
    dsimp only
    split
    · exact ⟨al.trans hl, rfl⟩
    · exact ⟨hl, rfl⟩
  | error e => exact ⟨rfl, rfl⟩

theorem train_step_no_trigger (fs : FeatureStore) (capacity epoch step : Nat)
    (nf : List NodeId) (st : TrainState) (h : ¬(epoch = 0 ∧ step = 1)) :
    (train_step fs capacity epoch step nf st).cacheCalls = st.cacheCalls ∧
    (train_step fs capacity epoch step nf st).cacher.cacheMask =
      st.cacher.cacheMask ∧
    (train_step fs capacity epoch step nf st).cacher.populated =
      st.cacher.populated := by
  unfold train_step
  cases hfd : fetch_data st.cacher fs nf with
  | ok p =>
    obtain ⟨c2, b⟩ := p
    obtain ⟨-, -, hm, -, hp⟩ := fetch_data_preserve st.cacher c2 fs nf b hfd
    dsimp only
    rw [if_neg h]
    exact ⟨rfl, hm, hp⟩
  | error e => exact ⟨rfl, rfl, rfl⟩

theorem train_step_trigger (fs : FeatureStore) (capacity : Nat)
    (nf : List NodeId) (st : TrainState) (c2 : GraphCacheServer)
    (b : List (FieldName × List FeatureRow))
    (hfd : fetch_data st.cacher fs nf = .ok (c2, b)) :
    train_step fs capacity 0 1 nf st =
      { st with cacher := auto_cache c2 fs capacity nf.toFinset,
                cacheCalls := st.cacheCalls + 1 } := by
  unfold train_step
  rw [hfd]
  simp

theorem run_batches_frame (fs : FeatureStore) (capacity epoch : Nat)
    (bs : List (List NodeId)) :
    ∀ step st,
      (run_batches fs capacity epoch step bs st).cacher.log = st.cacher.log ∧
      (run_batches fs capacity epoch step bs st).missRateChecks =
        st.missRateChecks := by
  induction bs with
  | nil => intro step st; exact ⟨rfl, rfl⟩
  | cons nf rest ih =>
    intro step st
    obtain ⟨h1, h2⟩ := ih (step + 1) (train_step fs capacity epoch step nf st)
    obtain ⟨g1, g2⟩ := train_step_frame fs capacity epoch step nf st
    exact ⟨h1.trans g1, h2.trans g2⟩

theorem run_batches_no_trigger (fs : FeatureStore) (capacity epoch : Nat)
    (bs : List (List NodeId)) :
    ∀ step st, epoch ≠ 0 ∨ 2 ≤ step →
      (run_batches fs capacity epoch step bs st).cacheCalls = st.cacheCalls ∧
      (run_batches fs capacity epoch step bs st).cacher.cacheMask =
        st.cacher.cacheMask ∧
      (run_batches fs capacity epoch step bs st).cacher.populated =
        st.cacher.populated := by
  induction bs with
  | nil => intro step st h; exact ⟨rfl, rfl, rfl⟩
  | cons nf rest ih =>
    intro step st h
    have hnt : ¬(epoch = 0 ∧ step = 1) := by
      rcases h with h | h
      · exact fun hc => h hc.1
      · intro hc
        omega
    obtain ⟨h1, h2, h3⟩ := ih (step + 1) (train_step fs capacity epoch step nf st)
      (by rcases h with h | h
          · exact Or.inl h
          · exact Or.inr (by omega))
    obtain ⟨g1, g2, g3⟩ := train_step_no_trigger fs capacity epoch step nf st hnt
    exact ⟨h1.trans g1, h2.trans g2, h3.trans g3⟩

theorem run_epoch_no_trigger (fs : FeatureStore) (capacity epoch : Nat)
    (bs : List (List NodeId)) (st : TrainState) (h : epoch ≠ 0) :
    (run_epoch fs capacity epoch bs st).cacheCalls = st.cacheCalls ∧
    (run_epoch fs capacity epoch bs st).cacher.cacheMask =
      st.cacher.cacheMask ∧
    (run_epoch fs capacity epoch bs st).cacher.populated =
      st.cacher.populated ∧
    (run_epoch fs capacity epoch bs st).cacher.log = st.cacher.log := by
  obtain ⟨h1, h2, h3⟩ := run_batches_no_trigger fs capacity epoch bs 1 st (Or.inl h)
  obtain ⟨g1, g2⟩ := run_batches_frame fs capacity epoch bs 1 st
  unfold run_epoch
  dsimp only
  split
  · exact ⟨h1, h2, h3, g1⟩
  · exact ⟨h1, h2, h3, g1⟩

theorem run_epoch_log_false (fs : FeatureStore) (capacity epoch : Nat)
    (bs : List (List NodeId)) (st : TrainState) (h : st.cacher.log = false) :
    (run_epoch fs capacity epoch bs st).cacher.log = false ∧
    (run_epoch fs capacity epoch bs st).missRateChecks = st.missRateChecks := by
  obtain ⟨g1, g2⟩ := run_batches_frame fs capacity epoch bs 1 st
  have hl : (run_batches fs capacity epoch 1 bs st).cacher.log = false :=
    g1.trans h
  unfold run_epoch
  dsimp only
  rw [hl]
  simp only [Bool.false_eq_true, if_false]
  exact ⟨hl, g2⟩

theorem foldl_epochs_no_trigger (fs : FeatureStore) (capacity : Nat)
    (batches : Nat → List (List NodeId)) :
    ∀ (l : List Nat), (∀ e ∈ l, e ≠ 0) → ∀ st : TrainState,
      ((l.foldl (fun s e => run_epoch fs capacity e (batches e) s) st).cacheCalls
          = st.cacheCalls) ∧
      ((l.foldl (fun s e => run_epoch fs capacity e (batches e) s)
          st).cacher.cacheMask = st.cacher.cacheMask) ∧
      ((l.foldl (fun s e => run_epoch fs capacity e (batches e) s)
          st).cacher.populated = st.cacher.populated) := by
  intro l
  induction l with
  | nil => intro _ st; exact ⟨rfl, rfl, rfl⟩
  | cons e rest ih =>
    intro h st
    obtain ⟨h1, h2, h3⟩ := ih (fun x hx => h x (List.mem_cons_of_mem _ hx))
      (run_epoch fs capacity e (batches e) st)
    obtain ⟨g1, g2, g3, -⟩ := run_epoch_no_trigger fs capacity e (batches e) st
      (h e (List.mem_cons_self e rest))
    rw [List.foldl_cons]
    exact ⟨h1.trans g1, h2.trans g2, h3.trans g3⟩

theorem foldl_epochs_log_false (fs : FeatureStore) (capacity : Nat)
    (batches : Nat → List (List NodeId)) :
    ∀ (l : List Nat) (st : TrainState), st.cacher.log = false →
      ((l.foldl (fun s e => run_epoch fs capacity e (batches e) s)
          st).cacher.log = false) ∧
      ((l.foldl (fun s e => run_epoch fs capacity e (batches e) s)
          st).missRateChecks = st.missRateChecks) := by
  intro l
  induction l with
  | nil => intro st h; exact ⟨h, rfl⟩
  | cons e rest ih =>
    intro st h
    obtain ⟨g1, g2⟩ := run_epoch_log_false fs capacity e (batches e) st h
    obtain ⟨h1, h2⟩ := ih (run_epoch fs capacity e (batches e) st) g1
    rw [List.foldl_cons]
    exact ⟨h1, h2.trans g2⟩

/-- Claim C9: in the script as written, the log flag is assigned false right
after init_field and never reassigned, and the only get_miss_rate call site is
guarded by that flag, so for every epoch of every run the miss-rate branch is
unreachable: the check count stays zero and the flag stays false. -/
theorem C9_miss_rate_branch_unreachable (vnum capacity nepochs : Nat)
    (fs : FeatureStore) (batches : Nat → List (List NodeId)) :
    (run_epochs fs capacity batches nepochs
        (init_train_state vnum)).missRateChecks = 0 ∧
    (run_epochs fs capacity batches nepochs
        (init_train_state vnum)).cacher.log = false := by
  obtain ⟨h1, h2⟩ := foldl_epochs_log_false fs capacity batches
    (List.range nepochs) (init_train_state vnum) rfl
  exact ⟨h2, h1⟩

/-- Claim C2: per worker, auto_cache is invoked exactly once when the first
epoch yields at least one batch and never otherwise, the single invocation
happening synchronously right after the first training step of the first
epoch; afterwards the server stays populated and the cache mask is never
recomputed for the remainder of the run. -/
theorem C2_auto_cache_once (vnum capacity nepochs : Nat) (fs : FeatureStore)
    (batches : Nat → List (List NodeId))
    (hrange : ∀ e, ∀ b ∈ batches e, ∀ id ∈ b, id < vnum) :
    (run_epochs fs capacity batches nepochs (init_train_state vnum)).cacheCalls
        = (if 0 < nepochs ∧ batches 0 ≠ [] then 1 else 0) ∧
    (∀ nf rest, batches 0 = nf :: rest → 0 < nepochs →
      ((run_epochs fs capacity batches nepochs
            (init_train_state vnum)).cacher.cacheMask
          = (train_step fs capacity 0 1 nf
              (init_train_state vnum)).cacher.cacheMask ∧
        (train_step fs capacity 0 1 nf
            (init_train_state vnum)).cacher.populated = true ∧
        (run_epochs fs capacity batches nepochs
            (init_train_state vnum)).cacher.populated = true)) := by
  cases nepochs with
  | zero =>
    constructor
    · simp [run_epochs, init_train_state]
    · intro nf rest heq h0
      exact absurd h0 (by omega)
  | succ n =>
    have hrw : run_epochs fs capacity batches (n + 1) (init_train_state vnum) =
        ((List.range n).map Nat.succ).foldl
          (fun s e => run_epoch fs capacity e (batches e) s)
          (run_epoch fs capacity 0 (batches 0) (init_train_state vnum)) := by
      unfold run_epochs
      rw [List.range_succ_eq_map, List.foldl_cons]
    have hne : ∀ e ∈ (List.range n).map Nat.succ, e ≠ 0 := by
      intro e he
      rw [List.mem_map] at he
      obtain ⟨x, -, hx⟩ := he
      omega
    obtain ⟨ht1, ht2, ht3⟩ := foldl_epochs_no_trigger fs capacity batches
      ((List.range n).map Nat.succ) hne
      (run_epoch fs capacity 0 (batches 0) (init_train_state vnum))
    cases hb : batches 0 with
    | nil =>
      have hep : run_epoch fs capacity 0 (batches 0) (init_train_state vnum) =
          init_train_state vnum := by
        rw [hb]
        rfl
      constructor
      · rw [hrw, ht1, hep]
        simp [init_train_state]
      · intro nf rest heq h0
        exact List.noConfusion heq
    | cons nf0 rest0 =>
      have hra : ∀ id ∈ nf0, id < (init_train_state vnum).cacher.vnum := by
        intro id hid
        have hmem : nf0 ∈ batches 0 := by
          rw [hb]
          exact List.mem_cons_self nf0 rest0
        exact hrange 0 nf0 hmem id hid
      have hfd := fetch_data_ok_of (init_train_state vnum).cacher fs nf0 rfl hra
      have hstep := train_step_trigger fs capacity nf0 (init_train_state vnum)
        _ _ hfd
      obtain ⟨hb1, hb2, hb3⟩ := run_batches_no_trigger fs capacity 0 rest0 2
        (train_step fs capacity 0 1 nf0 (init_train_state vnum)) (Or.inr le_rfl)
      obtain ⟨hbl, -⟩ := run_batches_frame fs capacity 0 rest0 2
        (train_step fs capacity 0 1 nf0 (init_train_state vnum))
      obtain ⟨hsl, -⟩ := train_step_frame fs capacity 0 1 nf0
        (init_train_state vnum)
      have hlog2 : (run_batches fs capacity 0 2 rest0
          (train_step fs capacity 0 1 nf0
            (init_train_state vnum))).cacher.log = false :=
        hbl.trans (hsl.trans rfl)
      have hep : run_epoch fs capacity 0 (batches 0) (init_train_state vnum) =
          run_batches fs capacity 0 2 rest0
            (train_step fs capacity 0 1 nf0 (init_train_state vnum)) := by
        rw [hb]
        unfold run_epoch
        dsimp only
        rw [show run_batches fs capacity 0 1 (nf0 :: rest0)
              (init_train_state vnum) =
            run_batches fs capacity 0 2 rest0
              (train_step fs capacity 0 1 nf0 (init_train_state vnum)) from rfl]
        rw [hlog2]
        simp
      have hcalls : (train_step fs capacity 0 1 nf0
          (init_train_state vnum)).cacheCalls = 1 := by
        rw [hstep]
        rfl
      have hpop : (train_step fs capacity 0 1 nf0
          (init_train_state vnum)).cacher.populated = true := by
        rw [hstep]
        exact (auto_cache_preserve _ fs capacity nf0.toFinset).2.2.2
      constructor
      · rw [hrw, ht1, hep, hb1, hcalls]
        rw [if_pos ⟨Nat.succ_pos n, List.cons_ne_nil nf0 rest0⟩]
      · intro nf rest heq h0
        injection heq with e1 e2
        subst e1
        subst e2
        refine ⟨?_, hpop, ?_⟩
        · rw [hrw, ht2, hep, hb2]
        · rw [hrw, ht3, hep, hb3, hpop]

/-- Concrete batches for the C2 witness: every epoch yields the same two
batches. -/
def demo_batches : Nat → List (List NodeId) := fun _ => [[1, 2], [3]]

/-- Witness for C2: a two-epoch run over concrete batches performs exactly
one auto_cache call and ends populated. -/
theorem C2_witness :
    (run_epochs demo_store 2 demo_batches 2 (init_train_state 5)).cacheCalls
        = 1 ∧
    (run_epochs demo_store 2 demo_batches 2
        (init_train_state 5)).cacher.populated = true := by
  have h := C2_auto_cache_once 5 2 2 demo_store demo_batches
    (by intro e
        show ∀ b ∈ ([[1, 2], [3]] : List (List NodeId)), ∀ id ∈ b, id < 5
        decide)
  constructor
  · rw [h.1]
    simp [demo_batches]
  · exact (h.2 [1, 2] [[3]] rfl (by omega)).2.2

/-- The chunk size of the per-rank partition of the script of the training ids:
the floor of n over world_size, minus one. -/
def chunk_size (n world_size : Nat) : Nat := n / world_size - 1

/-- The set of train_nid indices assigned to rank r by the slice taken by the script. -/
def rank_slice (n world_size r : Nat) : Finset Nat :=
  Finset.Ico (chunk_size n world_size * r) (chunk_size n world_size * (r + 1))

/-- Claim C10: the per-worker partition is disjoint but not exhaustive: the
rank slices never overlap, every assigned index lies below
chunk_size * world_size, and the trailing n - chunk_size * world_size
training ids, at least world_size of them, are assigned to no worker. -/
theorem C10_partition_disjoint_not_exhaustive (n world_size : Nat)
    (hws : 0 < world_size) (hn : world_size ≤ n) :
    (∀ r r2, r ≠ r2 →
      Disjoint (rank_slice n world_size r) (rank_slice n world_size r2)) ∧
    (∀ r, r < world_size → ∀ i ∈ rank_slice n world_size r,
      i < chunk_size n world_size * world_size) ∧
    chunk_size n world_size * world_size ≤ n ∧
    world_size ≤ n - chunk_size n world_size * world_size ∧
    n - chunk_size n world_size * world_size = n % world_size + world_size := by
  have hq1 : 1 ≤ n / world_size := (Nat.one_le_div_iff hws).mpr hn
  have hle : n / world_size * world_size ≤ n := Nat.div_mul_le_self n world_size
  have hws_le : world_size ≤ n / world_size * world_size := by
    calc world_size = 1 * world_size := (one_mul world_size).symm
    _ ≤ n / world_size * world_size := Nat.mul_le_mul_right world_size hq1
  have hdm : n / world_size * world_size + n % world_size = n := by
    rw [Nat.mul_comm]
    exact Nat.div_add_mod n world_size
  have hmod : n % world_size < world_size := Nat.mod_lt n hws
  have hsub : chunk_size n world_size * world_size =
      n / world_size * world_size - world_size := by
    unfold chunk_size
    rw [Nat.sub_mul, one_mul]
  have hdisj : ∀ r r2, r < r2 →
      Disjoint (rank_slice n world_size r) (rank_slice n world_size r2) := by
    intro r r2 hlt
    rw [Finset.disjoint_left]
    intro a ha ha2
    rw [rank_slice, Finset.mem_Ico] at ha ha2
    have hmul : chunk_size n world_size * (r + 1) ≤
        chunk_size n world_size * r2 :=
      Nat.mul_le_mul_left (chunk_size n world_size) hlt
    exact absurd (lt_of_lt_of_le (lt_of_lt_of_le ha.2 hmul) ha2.1)
      (lt_irrefl a)
  refine ⟨?_, ?_, ?_, ?_, ?_⟩
  · intro r r2 hne
    rcases Nat.lt_or_ge r r2 with h | h
    · exact hdisj r r2 h
    · rcases Nat.lt_or_ge r2 r with h2 | h2
      · exact (hdisj r2 r h2).symm
      · exact absurd (Nat.le_antisymm h2 h) hne
  · intro r hr i hi
    rw [rank_slice, Finset.mem_Ico] at hi
    exact lt_of_lt_of_le hi.2
      (Nat.mul_le_mul_left (chunk_size n world_size) hr)
  · rw [hsub]
    exact le_trans (Nat.sub_le _ _) hle
  · rw [hsub]
    generalize n / world_size * world_size = A at hle hws_le hdm
    generalize n % world_size = M at hdm hmod
    omega
  · rw [hsub]
    generalize n / world_size * world_size = A at hle hws_le hdm
    generalize n % world_size = M at hdm hmod ⊢
    omega

/-- Witness for C10 at n equal to ten training ids over three workers, where
the chunk size is two and the last four indices belong to no rank. -/
theorem C10_witness :
    ((∀ r r2, r ≠ r2 → Disjoint (rank_slice 10 3 r) (rank_slice 10 3 r2)) ∧
     (∀ r, r < 3 → ∀ i ∈ rank_slice 10 3 r, i < chunk_size 10 3 * 3) ∧
     chunk_size 10 3 * 3 ≤ 10 ∧
     3 ≤ 10 - chunk_size 10 3 * 3 ∧
     10 - chunk_size 10 3 * 3 = 10 % 3 + 3) :=
  C10_partition_disjoint_not_exhaustive 10 3 (by decide) (by decide)

end AccGNN
